import Mathlib

/-!
Verification of the resolution stage of rustling-ontology
(values/src/context.rs): the `ParsingContext` trait with its two
implementations `IdentityContext` and `ResolverContext`.

The resolver itself (`ResolverContext::resolve`) is translated directly
from the source.  The collaborator types it consumes — `Moment`,
`Interval`, `Grain`, the `Walker` produced by a constraint, and the
`Dimension`/`Output` unions — live in crates of the repository that are
not part of the given source unit; they are modelled from the spec and
each such definition says so in its doc comment.  Moments are modelled
as integers (an abstract timeline); lazy candidate sequences are
modelled as lists, a pull from an iterator being `List.head?` and the
following pull acting on `List.tail`.
-/

namespace Rustling

/-- Modelled from the spec: a `Moment` is a single point in time; the
calendar arithmetic behind it is out of scope, so the timeline is
abstracted to the integers. -/
abbrev Moment := Int

/-- Modelled from the spec: the unit of calendar granularity an
interval is aligned to. -/
inductive Grain where
  | Year
  | Quarter
  | Month
  | Week
  | Day
  | Hour
  | Minute
  | Second
deriving DecidableEq, Repr

/-- Modelled from the spec: the length of one grain on the abstract
timeline, used only to derive a default end moment from a start. -/
def Grain.seconds : Grain → Int
  | Grain.Year => 31536000
  | Grain.Quarter => 7776000
  | Grain.Month => 2592000
  | Grain.Week => 604800
  | Grain.Day => 86400
  | Grain.Hour => 3600
  | Grain.Minute => 60
  | Grain.Second => 1

/-- Modelled from the spec: a span of time with an optional end,
tagged with a grain.  The field `end` of the source is spelled `end_`
because `end` is reserved in Lean. -/
structure Interval where
  start : Moment
  end_ : Option Moment
  grain : Grain
deriving DecidableEq, Repr

/-- Modelled from the spec: the end of the interval as a moment,
defaulting to the start-derived end (one grain after the start) when no
explicit end is present. -/
def Interval.end_moment (i : Interval) : Moment :=
  i.end_.getD (i.start + Grain.seconds i.grain)

/-- Modelled from the spec: intersection of two spans, where spans are
half-open on the right and an absent end means open-ended; the result
is present exactly when the spans overlap. -/
def Interval.intersect (a b : Interval) : Option Interval :=
  let s := max a.start b.start
  match a.end_, b.end_ with
  | none, none => some { start := s, end_ := none, grain := a.grain }
  | some ea, none =>
      if s < ea then some { start := s, end_ := some ea, grain := a.grain } else none
  | none, some eb =>
      if s < eb then some { start := s, end_ := some eb, grain := a.grain } else none
  | some ea, some eb =>
      let e := min ea eb
      if s < e then some { start := s, end_ := some e, grain := a.grain } else none

/-- Modelled from the spec: the paired forward/backward candidate
sequences derived from a constraint.  A lazy sequence is modelled by
the list of elements it would yield; pulling is `List.head?`. -/
structure Walker where
  forward : List Interval
  backward : List Interval

/-- Modelled from the spec: the context of a resolution request, three
intervals `reference`, `min` and `max`. -/
structure Context where
  reference : Interval
  min : Interval
  max : Interval
deriving DecidableEq, Repr

/-- Modelled from the spec: a constraint is consumed only through
`to_walker(reference, context)`. -/
structure Constraint where
  to_walker : Interval → Context → Walker

/-- Modelled from the spec: grammar precision flag, forwarded verbatim. -/
inductive Precision where
  | Approximate
  | Exact
deriving DecidableEq, Repr

/-- Modelled from the spec: the declared kind of a temporal value;
`Other` stands for the further kinds the resolver forwards verbatim. -/
inductive DatetimeKind where
  | Date
  | Time
  | DateTime
  | Other
deriving DecidableEq, Repr

/-- Modelled from the spec: the optional form flags of a datetime
value; only `not_immediate` is consulted by the resolver, absence
meaning false. -/
structure Form where
  not_immediate : Option Bool
deriving DecidableEq, Repr

/-- Modelled from the spec: which edge of the chosen interval anchors a
directional output. -/
inductive Bound where
  | Start
  | End (only_interval : Bool)
deriving DecidableEq, Repr

/-- Modelled from the spec: whether a directional output extends after
or before its anchor. -/
inductive Direction where
  | After
  | Before
deriving DecidableEq, Repr

/-- Modelled from the spec: the optional directional payload of a
datetime value. -/
structure BoundedDirection where
  bound : Bound
  direction : Direction
deriving DecidableEq, Repr

/-- Modelled from the spec: the `Datetime` variant payload of the
abstract value union. -/
structure DatetimeValue where
  constraint : Constraint
  form : Form
  direction : Option BoundedDirection
  precision : Precision
  latent : Bool
  datetime_kind : DatetimeKind

/-- Modelled from the spec: integer payload of the number union. -/
structure IntegerValue where
  value : Int
deriving DecidableEq, Repr

/-- Modelled from the spec: float payload of the number union; the
resolver only copies the value, so it is abstracted to a rational. -/
structure FloatValue where
  value : Rat
deriving DecidableEq, Repr

/-- Modelled from the spec: the two-armed number union. -/
inductive NumberValue where
  | Integer (v : IntegerValue)
  | Float (v : FloatValue)

/-- Modelled from the spec: ordinal payload. -/
structure OrdinalValue where
  value : Int
deriving DecidableEq, Repr

/-- Modelled from the spec: money payload; the float value is
abstracted to a rational, the unit is an optional string. -/
structure AmountOfMoneyValue where
  value : Rat
  precision : Precision
  unit : Option String
deriving DecidableEq, Repr

/-- Modelled from the spec: temperature payload. -/
structure TemperatureValue where
  value : Rat
  unit : Option String
  latent : Bool
deriving DecidableEq, Repr

/-- Modelled from the spec: a duration period, a bag of grain/amount
pairs; the resolver only clones it. -/
abbrev Period := List (Grain × Int)

/-- Modelled from the spec: duration payload. -/
structure DurationValue where
  period : Period
  precision : Precision
deriving DecidableEq, Repr

/-- Modelled from the spec: the abstract semantic value union
(`Dimension`); `Other` stands for the variants the resolver does not
recognize, matched by the catch-all arm of the source. -/
inductive Dimension where
  | Datetime (v : DatetimeValue)
  | Number (v : NumberValue)
  | Ordinal (v : OrdinalValue)
  | AmountOfMoney (v : AmountOfMoneyValue)
  | Temperature (v : TemperatureValue)
  | Duration (v : DurationValue)
  | Percentage (v : Rat)
  | Other

/-- Modelled from the spec: concrete resolved datetime output. -/
structure DatetimeOutput where
  moment : Moment
  grain : Grain
  precision : Precision
  latent : Bool
  datetime_kind : DatetimeKind
deriving DecidableEq, Repr

/-- Modelled from the spec: the three shapes of a resolved datetime
interval. -/
inductive DatetimeIntervalKind where
  | Between (start : Moment) (end_ : Moment) (precision : Precision) (latent : Bool)
  | After (d : DatetimeOutput)
  | Before (d : DatetimeOutput)
deriving DecidableEq, Repr

/-- Modelled from the spec: a resolved datetime interval together with
its outer kind tag. -/
structure DatetimeIntervalOutput where
  interval_kind : DatetimeIntervalKind
  datetime_kind : DatetimeKind
deriving DecidableEq, Repr

/-- Modelled from the spec: money output. -/
structure AmountOfMoneyOutput where
  value : Rat
  precision : Precision
  unit : Option String
deriving DecidableEq, Repr

/-- Modelled from the spec: temperature output. -/
structure TemperatureOutput where
  value : Rat
  unit : Option String
  latent : Bool
deriving DecidableEq, Repr

/-- Modelled from the spec: duration output. -/
structure DurationOutput where
  period : Period
  precision : Precision
deriving DecidableEq, Repr

/-- Modelled from the spec: the union of concrete resolved values. -/
inductive Output where
  | Datetime (d : DatetimeOutput)
  | DatetimeInterval (d : DatetimeIntervalOutput)
  | Integer (v : Int)
  | Float (v : Rat)
  | Ordinal (v : Int)
  | AmountOfMoney (v : AmountOfMoneyOutput)
  | Temperature (v : TemperatureOutput)
  | Duration (v : DurationOutput)
  | Percentage (v : Rat)
deriving DecidableEq, Repr

/-- Translated from src/values/src/context.rs (IdentityContext): a
context with no state beyond a phantom type parameter. -/
structure IdentityContext (V : Type) where

/-- Translated from src/values/src/context.rs lines 24-29: resolve on
the identity context returns a clone of its input. -/
def IdentityContext.resolve {V : Type} (_i : IdentityContext V) (value : V) : Option V :=
  some value

/-- Translated from src/values/src/context.rs lines 31-34: the
resolver context wraps a `Context`. -/
structure ResolverContext where
  ctx : Context

/-- Translated from src/values/src/context.rs lines 71-72: the
condition under which the first forward candidate h is discarded —
the not_immediate form flag (absence meaning false) together with a
non-empty intersection of h with the reference interval. -/
def ResolverContext.skipCondition (c : ResolverContext) (dv : DatetimeValue)
    (h : Interval) : Bool :=
  dv.form.not_immediate.getD false && (h.intersect c.ctx.reference).isSome

/-- Translated from src/values/src/context.rs lines 67-78: the
`forward.next().and_then(..)` chain.  The first forward pull is the
head of the forward sequence; when the skip condition holds the second
pull, the head of the tail, replaces it. -/
def ResolverContext.survivingForward (c : ResolverContext) (dv : DatetimeValue)
    (w : Walker) : Option Interval :=
  Option.bind w.forward.head? fun h =>
    if c.skipCondition dv h then w.forward.tail.head? else some h

/-- Translated from src/values/src/context.rs line 79: the
`.or_else(|| walker.backward.next())` fallback to the first backward
candidate. -/
def ResolverContext.chooseInterval (c : ResolverContext) (dv : DatetimeValue)
    (w : Walker) : Option Interval :=
  Option.orElse (c.survivingForward dv w) fun _ => w.backward.head?

/-- Translated from src/values/src/context.rs lines 80-145: the body of
the `.map(|interval| ..)` building the output for the chosen interval:
directional values anchor a moment by the bound and wrap it After or
Before; otherwise an interval carrying an end becomes a Between and a
bare interval becomes a plain datetime output. -/
def datetimeOutputFor (dv : DatetimeValue) (interval : Interval) : Output :=
  match dv.direction with
  | some bounded_direction =>
      let anchor : Moment :=
        match bounded_direction.bound with
        | Bound.Start => interval.start
        | Bound.End true => interval.end_.getD interval.start
        | Bound.End false => interval.end_moment
      let datetime_output_value : DatetimeOutput :=
        { moment := anchor
          grain := interval.grain
          precision := dv.precision
          latent := dv.latent
          datetime_kind := dv.datetime_kind }
      match bounded_direction.direction with
      | Direction.After =>
          Output.DatetimeInterval
            { interval_kind := DatetimeIntervalKind.After datetime_output_value
              datetime_kind := datetime_output_value.datetime_kind }
      | Direction.Before =>
          Output.DatetimeInterval
            { interval_kind := DatetimeIntervalKind.Before datetime_output_value
              datetime_kind := datetime_output_value.datetime_kind }
  | none =>
      match interval.end_ with
      | some e =>
          Output.DatetimeInterval
            { interval_kind :=
                DatetimeIntervalKind.Between interval.start e dv.precision dv.latent
              datetime_kind := dv.datetime_kind }
      | none =>
          Output.Datetime
            { moment := interval.start
              grain := interval.grain
              precision := dv.precision
              latent := dv.latent
              datetime_kind := dv.datetime_kind }

/-- Translated from src/values/src/context.rs lines 117-124: the
condition of the `warn!` diagnostic inside the no-direction arm — the
chosen interval carries an end while the declared kind is Date or
Time.  The log effect itself is outside the embedding; this predicate
records exactly when it fires. -/
def spanAnomalyWarning (dv : DatetimeValue) (interval : Interval) : Bool :=
  dv.direction.isNone && interval.end_.isSome &&
    (dv.datetime_kind == DatetimeKind.Date || dv.datetime_kind == DatetimeKind.Time)

/-- Translated from src/values/src/context.rs lines 61-173: resolution
of an abstract value against the context.  Temporal values drive the
walker and map the chosen interval to an output; scalar kinds are
field copies; unrecognized kinds yield none. -/
def ResolverContext.resolve (c : ResolverContext) (dim : Dimension) : Option Output :=
  match dim with
  | Dimension.Datetime datetime_value =>
      let walker :=
        datetime_value.constraint.to_walker c.ctx.reference c.ctx
      Option.map (datetimeOutputFor datetime_value)
        (c.chooseInterval datetime_value walker)
  | Dimension.Number (NumberValue.Integer v) => some (Output.Integer v.value)
  | Dimension.Number (NumberValue.Float v) => some (Output.Float v.value)
  | Dimension.Ordinal ordinal => some (Output.Ordinal ordinal.value)
  | Dimension.AmountOfMoney aom =>
      some (Output.AmountOfMoney
        { value := aom.value, precision := aom.precision, unit := aom.unit })
  | Dimension.Temperature temp =>
      some (Output.Temperature
        { value := temp.value, unit := temp.unit, latent := temp.latent })
  | Dimension.Duration duration =>
      some (Output.Duration
        { period := duration.period, precision := duration.precision })
  | Dimension.Percentage percentage => some (Output.Percentage percentage)
  | Dimension.Other => none

/-- Translated from src/values/src/context.rs lines 117-124 lifted to
the resolver: whether one call of resolve on the given datetime value
emits the span-anomaly warning. -/
def ResolverContext.resolveWarns (c : ResolverContext) (dv : DatetimeValue) : Bool :=
  match c.chooseInterval dv (dv.constraint.to_walker c.ctx.reference c.ctx) with
  | some interval => spanAnomalyWarning dv interval
  | none => false

/-! Concrete instances used to evaluate the development on closed
inputs. -/

/-- Concrete reference interval: ten seconds from the epoch of the
abstract timeline. -/
def refInterval : Interval :=
  { start := 0, end_ := some 10, grain := Grain.Second }

/-- Concrete resolver context anchored at `refInterval`. -/
def ctxW : ResolverContext :=
  { ctx := { reference := refInterval, min := refInterval, max := refInterval } }

/-- Concrete candidate interval overlapping the reference. -/
def i0 : Interval :=
  { start := 5, end_ := some 15, grain := Grain.Hour }

/-- Concrete candidate interval disjoint from the reference, with no
explicit end. -/
def i1 : Interval :=
  { start := 20, end_ := none, grain := Grain.Day }

/-- Concrete datetime value whose walker yields `i0` then `i1` forward
and nothing backward, with the not_immediate flag set. -/
def dvW1 : DatetimeValue :=
  { constraint := ⟨fun _ _ => ⟨[i0, i1], []⟩⟩
    form := ⟨some true⟩
    direction := none
    precision := Precision.Exact
    latent := false
    datetime_kind := DatetimeKind.DateTime }

/-- Concrete datetime value whose walker yields `i1` forward and `i0`
backward, with no form flag. -/
def dvW2 : DatetimeValue :=
  { dvW1 with
    constraint := ⟨fun _ _ => ⟨[i1], [i0]⟩⟩
    form := ⟨none⟩ }

/-- C1: with the not_immediate flag set and a first forward candidate
that intersects the reference, resolve discards it and uses the second
forward candidate; when the flag is false or absent, or the first
candidate does not intersect the reference, the first forward
candidate is used. -/
theorem c1_not_immediate_skip (c : ResolverContext) (dv : DatetimeValue) :
    (∀ h0 h1 rest bw,
        dv.constraint.to_walker c.ctx.reference c.ctx = ⟨h0 :: h1 :: rest, bw⟩ →
        dv.form.not_immediate.getD false = true →
        (h0.intersect c.ctx.reference).isSome = true →
        c.resolve (Dimension.Datetime dv) = some (datetimeOutputFor dv h1))
  ∧ (∀ h0 rest bw,
        dv.constraint.to_walker c.ctx.reference c.ctx = ⟨h0 :: rest, bw⟩ →
        (dv.form.not_immediate.getD false = false ∨
          (h0.intersect c.ctx.reference).isSome = false) →
        c.resolve (Dimension.Datetime dv) = some (datetimeOutputFor dv h0)) := by
  constructor
  · intro h0 h1 rest bw hw hni hint
    simp [ResolverContext.resolve, hw, ResolverContext.chooseInterval,
      ResolverContext.survivingForward, ResolverContext.skipCondition,
      hni, hint, Option.orElse]
  · intro h0 rest bw hw hor
    rcases hor with hni | hint
    · simp [ResolverContext.resolve, hw, ResolverContext.chooseInterval,
        ResolverContext.survivingForward, ResolverContext.skipCondition,
        hni, Option.orElse]
    · simp [ResolverContext.resolve, hw, ResolverContext.chooseInterval,
        ResolverContext.survivingForward, ResolverContext.skipCondition,
        hint, Option.orElse]

/-- Witness for C1 at a closed input: the skip fires and the second
forward candidate is resolved. -/
theorem c1_witness :
    ctxW.resolve (Dimension.Datetime dvW1) =
      some (Output.Datetime
        { moment := 20, grain := Grain.Day, precision := Precision.Exact,
          latent := false, datetime_kind := DatetimeKind.DateTime }) :=
  (c1_not_immediate_skip ctxW dvW1).1 i0 i1 [] [] rfl rfl (by decide)

/-- C2: a forward candidate surviving the not-immediate skip is chosen
whatever the backward sequence holds, and when no forward candidate
survives the chosen interval is the first backward candidate. -/
theorem c2_forward_before_backward (c : ResolverContext) (dv : DatetimeValue)
    (fw bw : List Interval) :
    (∀ h, c.survivingForward dv ⟨fw, bw⟩ = some h →
        ∀ bw2, c.chooseInterval dv ⟨fw, bw2⟩ = some h)
  ∧ (c.survivingForward dv ⟨fw, bw⟩ = none →
        c.chooseInterval dv ⟨fw, bw⟩ = bw.head?) := by
  constructor
  · intro h hs bw2
    have hs2 : c.survivingForward dv ⟨fw, bw2⟩ = some h := by
      simpa [ResolverContext.survivingForward] using hs
    simp [ResolverContext.chooseInterval, hs2, Option.orElse]
  · intro hs
    simp [ResolverContext.chooseInterval, hs, Option.orElse]

/-- Witness for C2 at a closed input: the surviving forward candidate
is chosen even with a non-empty backward sequence. -/
theorem c2_witness :
    ctxW.chooseInterval dvW2 ⟨[i1], [i0]⟩ = some i1 :=
  (c2_forward_before_backward ctxW dvW2 [i1] []).1 i1 rfl [i0]

/-- C9: money values resolve to a field-for-field copy for every
context; in particular the value 42.5, approximate, in USD. -/
theorem c9_amount_of_money_passthrough (c : ResolverContext) (aom : AmountOfMoneyValue) :
    c.resolve (Dimension.AmountOfMoney aom) =
      some (Output.AmountOfMoney
        { value := aom.value, precision := aom.precision, unit := aom.unit })
  ∧ ∀ c2 : ResolverContext,
      c2.resolve (Dimension.AmountOfMoney
        { value := (42.5 : Rat), precision := Precision.Approximate,
          unit := some "USD" }) =
      some (Output.AmountOfMoney
        { value := (42.5 : Rat), precision := Precision.Approximate,
          unit := some "USD" }) :=
  ⟨rfl, fun _ => rfl⟩

/-- C10: the identity context resolves every value to some copy of it,
independently of the context instance. -/
theorem c10_identity_resolve (V : Type) (i j : IdentityContext V) (value : V) :
    i.resolve value = some value ∧ i.resolve value = j.resolve value :=
  ⟨rfl, rfl⟩

/-- Observation helper: the anchor moment carried by a directional
interval output, when the output is one. -/
def Output.anchor : Output → Option Moment
  | Output.DatetimeInterval o =>
      match o.interval_kind with
      | DatetimeIntervalKind.After d => some d.moment
      | DatetimeIntervalKind.Before d => some d.moment
      | DatetimeIntervalKind.Between _ _ _ _ => none
  | _ => none

/-- Observation helper: the kind tag on the outer interval output. -/
def Output.outerDatetimeKind : Output → Option DatetimeKind
  | Output.DatetimeInterval o => some o.datetime_kind
  | _ => none

/-- Observation helper: the kind tag on the payload of a directional
interval output. -/
def Output.payloadDatetimeKind : Output → Option DatetimeKind
  | Output.DatetimeInterval o =>
      match o.interval_kind with
      | DatetimeIntervalKind.After d => some d.datetime_kind
      | DatetimeIntervalKind.Before d => some d.datetime_kind
      | DatetimeIntervalKind.Between _ _ _ _ => none
  | _ => none

/-- Concrete datetime value with an end-of-interval After direction and
a walker yielding only `i1` forward. -/
def dvW4 : DatetimeValue :=
  { dvW2 with
    constraint := ⟨fun _ _ => ⟨[i1], []⟩⟩
    direction := some ⟨Bound.End true, Direction.After⟩ }

/-- Concrete datetime value with a start-anchored After direction and a
walker yielding only `i1` forward. -/
def dvW5 : DatetimeValue :=
  { dvW4 with direction := some ⟨Bound.Start, Direction.After⟩ }

/-- Concrete datetime value of kind Time, no direction, whose walker
yields only the span `i0` forward. -/
def dvW6 : DatetimeValue :=
  { dvW2 with
    constraint := ⟨fun _ _ => ⟨[i0], []⟩⟩
    datetime_kind := DatetimeKind.Time }

/-- C4: with a direction present, the anchor moment of the resolved
output is selected by the bound — Start takes the interval start, End
with only_interval takes the explicit end or else the start, End
without only_interval takes the end moment; in particular End with
only_interval on an endless interval anchors at the start. -/
theorem c4_bound_selection (c : ResolverContext) (dv : DatetimeValue)
    (bd : BoundedDirection) (i : Interval)
    (hdir : dv.direction = some bd)
    (hchoose : c.chooseInterval dv
      (dv.constraint.to_walker c.ctx.reference c.ctx) = some i) :
    (bd.bound = Bound.Start →
        Option.bind (c.resolve (Dimension.Datetime dv)) Output.anchor =
          some i.start)
  ∧ (bd.bound = Bound.End true →
        Option.bind (c.resolve (Dimension.Datetime dv)) Output.anchor =
          some (i.end_.getD i.start))
  ∧ (bd.bound = Bound.End false →
        Option.bind (c.resolve (Dimension.Datetime dv)) Output.anchor =
          some i.end_moment)
  ∧ (bd.bound = Bound.End true → i.end_ = none →
        Option.bind (c.resolve (Dimension.Datetime dv)) Output.anchor =
          some i.start) := by
  have hres : c.resolve (Dimension.Datetime dv) = some (datetimeOutputFor dv i) := by
    simp [ResolverContext.resolve, hchoose]
  refine ⟨?_, ?_, ?_, ?_⟩
  · intro hb
    rw [hres]
    cases hdd : bd.direction <;>
      simp [datetimeOutputFor, hdir, hb, hdd, Output.anchor]
  · intro hb
    rw [hres]
    cases hdd : bd.direction <;>
      simp [datetimeOutputFor, hdir, hb, hdd, Output.anchor]
  · intro hb
    rw [hres]
    cases hdd : bd.direction <;>
      simp [datetimeOutputFor, hdir, hb, hdd, Output.anchor]
  · intro hb hend
    rw [hres]
    cases hdd : bd.direction <;>
      simp [datetimeOutputFor, hdir, hb, hdd, hend, Output.anchor]

/-- Witness for C4 at a closed input: End with only_interval on the
endless interval `i1` anchors at its start. -/
theorem c4_witness :
    Option.bind (ctxW.resolve (Dimension.Datetime dvW4)) Output.anchor = some 20 :=
  (c4_bound_selection ctxW dvW4 ⟨Bound.End true, Direction.After⟩ i1 rfl rfl).2.2.2
    rfl rfl

/-- C5: with direction Start/After and chosen interval starting at S,
resolve returns an After interval output whose payload moment is S,
symmetrically Before, and for any direction the outer kind tag of the
output equals the kind tag of its payload. -/
theorem c5_after_before_output (c : ResolverContext) (dv : DatetimeValue) (i : Interval)
    (hchoose : c.chooseInterval dv
      (dv.constraint.to_walker c.ctx.reference c.ctx) = some i) :
    (dv.direction = some ⟨Bound.Start, Direction.After⟩ →
        c.resolve (Dimension.Datetime dv) =
          some (Output.DatetimeInterval
            { interval_kind := DatetimeIntervalKind.After
                { moment := i.start, grain := i.grain, precision := dv.precision,
                  latent := dv.latent, datetime_kind := dv.datetime_kind }
              datetime_kind := dv.datetime_kind }))
  ∧ (dv.direction = some ⟨Bound.Start, Direction.Before⟩ →
        c.resolve (Dimension.Datetime dv) =
          some (Output.DatetimeInterval
            { interval_kind := DatetimeIntervalKind.Before
                { moment := i.start, grain := i.grain, precision := dv.precision,
                  latent := dv.latent, datetime_kind := dv.datetime_kind }
              datetime_kind := dv.datetime_kind }))
  ∧ (∀ bd o, dv.direction = some bd →
        c.resolve (Dimension.Datetime dv) = some o →
        Output.outerDatetimeKind o = Output.payloadDatetimeKind o) := by
  have hres : c.resolve (Dimension.Datetime dv) = some (datetimeOutputFor dv i) := by
    simp [ResolverContext.resolve, hchoose]
  refine ⟨?_, ?_, ?_⟩
  · intro hdir
    rw [hres]
    simp [datetimeOutputFor, hdir]
  · intro hdir
    rw [hres]
    simp [datetimeOutputFor, hdir]
  · intro bd o hdir hro
    rw [hres] at hro
    have ho : o = datetimeOutputFor dv i := by
      exact (Option.some.injEq _ _).mp hro.symm
    subst ho
    cases hb : bd.bound <;> cases hdd : bd.direction <;>
      simp [datetimeOutputFor, hdir, hb, hdd,
        Output.outerDatetimeKind, Output.payloadDatetimeKind]

/-- Witness for C5 at a closed input: Start/After wraps the chosen
interval start in an After output with matching kind tags. -/
theorem c5_witness :
    ctxW.resolve (Dimension.Datetime dvW5) =
      some (Output.DatetimeInterval
        { interval_kind := DatetimeIntervalKind.After
            { moment := 20, grain := Grain.Day, precision := Precision.Exact,
              latent := false, datetime_kind := DatetimeKind.DateTime }
          datetime_kind := DatetimeKind.DateTime }) :=
  (c5_after_before_output ctxW dvW5 i1 rfl).1 rfl

/-- C6: a Date- or Time-kinded value with no direction whose chosen
interval carries an end fires the span-anomaly warning and still
resolves to the Between output tagged with the original kind. -/
theorem c6_span_anomaly_passthrough (c : ResolverContext) (dv : DatetimeValue)
    (i : Interval) (e : Moment)
    (hdir : dv.direction = none)
    (hkind : dv.datetime_kind = DatetimeKind.Date ∨
      dv.datetime_kind = DatetimeKind.Time)
    (hend : i.end_ = some e)
    (hchoose : c.chooseInterval dv
      (dv.constraint.to_walker c.ctx.reference c.ctx) = some i) :
    c.resolveWarns dv = true
  ∧ c.resolve (Dimension.Datetime dv) =
      some (Output.DatetimeInterval
        { interval_kind :=
            DatetimeIntervalKind.Between i.start e dv.precision dv.latent
          datetime_kind := dv.datetime_kind }) := by
  constructor
  · rcases hkind with hk | hk <;>
      simp [ResolverContext.resolveWarns, hchoose, spanAnomalyWarning, hdir, hend, hk]
  · simp [ResolverContext.resolve, hchoose, datetimeOutputFor, hdir, hend]

/-- Witness for C6 at a closed input: a Time-kinded value resolving to
the span `i0` warns and returns the Between output. -/
theorem c6_witness :
    ctxW.resolveWarns dvW6 = true
  ∧ ctxW.resolve (Dimension.Datetime dvW6) =
      some (Output.DatetimeInterval
        { interval_kind :=
            DatetimeIntervalKind.Between 5 15 Precision.Exact false
          datetime_kind := DatetimeKind.Time }) :=
  c6_span_anomaly_passthrough ctxW dvW6 i0 15 rfl (Or.inr rfl) rfl rfl

/-- Concrete datetime value with the not_immediate flag set whose
walker yields only the reference-overlapping `i0` forward and nothing
backward, so the skip discards the only candidate. -/
def dvC3 : DatetimeValue :=
  { dvW1 with constraint := ⟨fun _ _ => ⟨[i0], []⟩⟩ }

/-- Counterexample to C3 as stated: the walker of `dvC3` does produce a
forward candidate, yet resolve returns none, because the not-immediate
skip discards that candidate and nothing else is available. -/
theorem c3_counterexample :
    ctxW.resolve (Dimension.Datetime dvC3) = none
  ∧ (dvC3.constraint.to_walker ctxW.ctx.reference ctxW.ctx).forward ≠ [] := by
  exact ⟨by decide, by decide⟩

/-- C3 (amended): resolve returns none exactly when the kind is
unrecognized or the value is a datetime whose candidate selection
yields nothing; the selection yields nothing exactly when no forward
candidate survives the not-immediate skip and the backward sequence is
empty. -/
theorem c3_none_characterization (c : ResolverContext) (dim : Dimension) :
    (c.resolve dim = none ↔
      dim = Dimension.Other ∨
      ∃ dv, dim = Dimension.Datetime dv ∧
        c.chooseInterval dv (dv.constraint.to_walker c.ctx.reference c.ctx) = none)
  ∧ ∀ dv w, (c.chooseInterval dv w = none ↔
      c.survivingForward dv w = none ∧ w.backward.head? = none) := by
  constructor
  · cases dim with
    | Datetime dv => simp [ResolverContext.resolve, Option.map_eq_none']
    | Number n => cases n <;> simp [ResolverContext.resolve]
    | Ordinal o => simp [ResolverContext.resolve]
    | AmountOfMoney a => simp [ResolverContext.resolve]
    | Temperature t => simp [ResolverContext.resolve]
    | Duration d => simp [ResolverContext.resolve]
    | Percentage p => simp [ResolverContext.resolve]
    | Other => simp [ResolverContext.resolve]
  · intro dv w
    cases hs : c.survivingForward dv w <;>
      simp [ResolverContext.chooseInterval, hs, Option.orElse]

/-- Translated from src/values/src/context.rs lines 67-78: how many
elements one resolution pulls from the forward iterator — one always,
a second exactly when the skip condition discards the first. -/
def ResolverContext.forwardPulls (c : ResolverContext) (dv : DatetimeValue)
    (w : Walker) : Nat :=
  match w.forward.head? with
  | none => 1
  | some h => if c.skipCondition dv h then 2 else 1

/-- Translated from src/values/src/context.rs line 79: how many
elements one resolution pulls from the backward iterator — one exactly
when the forward chain yielded no surviving candidate. -/
def ResolverContext.backwardPulls (c : ResolverContext) (dv : DatetimeValue)
    (w : Walker) : Nat :=
  match c.survivingForward dv w with
  | none => 1
  | some _ => 0

/-- C7: one resolution pulls at most two forward and at most one
backward candidate; a second forward pull happens only when the skip
discards the first candidate, the backward pull only when no forward
candidate survives; accordingly the chosen interval depends only on
the first two forward and the first backward elements. -/
theorem c7_lazy_pull_bound (c : ResolverContext) (dv : DatetimeValue) (w : Walker) :
    c.forwardPulls dv w ≤ 2
  ∧ c.backwardPulls dv w ≤ 1
  ∧ (c.forwardPulls dv w = 2 →
      ∃ h, w.forward.head? = some h ∧ c.skipCondition dv h = true)
  ∧ (c.backwardPulls dv w = 1 → c.survivingForward dv w = none)
  ∧ c.chooseInterval dv w =
      c.chooseInterval dv ⟨w.forward.take 2, w.backward.take 1⟩ := by
  refine ⟨?_, ?_, ?_, ?_, ?_⟩
  · cases hf : w.forward.head? with
    | none => simp [ResolverContext.forwardPulls, hf]
    | some h =>
        by_cases hs : c.skipCondition dv h = true <;>
          simp [ResolverContext.forwardPulls, hf, hs]
  · cases hs : c.survivingForward dv w <;>
      simp [ResolverContext.backwardPulls, hs]
  · intro h2
    cases hf : w.forward.head? with
    | none => simp [ResolverContext.forwardPulls, hf] at h2
    | some h =>
        by_cases hs : c.skipCondition dv h = true
        · exact ⟨h, rfl, hs⟩
        · simp [ResolverContext.forwardPulls, hf, hs] at h2
  · intro h1
    cases hs : c.survivingForward dv w with
    | none => rfl
    | some x => simp [ResolverContext.backwardPulls, hs] at h1
  · obtain ⟨fw, bw⟩ := w
    cases fw with
    | nil =>
        cases bw <;>
          simp [ResolverContext.chooseInterval, ResolverContext.survivingForward,
            Option.orElse]
    | cons h t =>
        cases t <;> cases bw <;>
          by_cases hs : c.skipCondition dv h = true <;>
          simp [ResolverContext.chooseInterval, ResolverContext.survivingForward,
            hs, Option.orElse]

/-- Witness for C7 at a closed input: two forward pulls happen and the
skip condition indeed fired on the first candidate. -/
theorem c7_witness :
    ∃ h, (Walker.mk [i0, i1] []).forward.head? = some h ∧
      ctxW.skipCondition dvW1 h = true :=
  (c7_lazy_pull_bound ctxW dvW1 ⟨[i0, i1], []⟩).2.2.1 (by decide)

/-- Translated from src/values/src/context.rs lines 67-79 with the
iterator state made explicit: pulling splits a sequence into its first
element and the rest. -/
def nextCandidate : List Interval → Option Interval × List Interval
  | [] => (none, [])
  | x :: xs => (some x, xs)

/-- Translated from src/values/src/context.rs lines 61-173 with the
borrowed context and the walker iterator state threaded explicitly:
the source takes the context by shared reference, so the threaded
context comes back unchanged. -/
def ResolverContext.resolveSt (c : ResolverContext) (dim : Dimension) :
    Option Output × ResolverContext :=
  match dim with
  | Dimension.Datetime datetime_value =>
      let walker := datetime_value.constraint.to_walker c.ctx.reference c.ctx
      let p1 := nextCandidate walker.forward
      let p2 :=
        match p1.1 with
        | none => (none, p1.2)
        | some h =>
            if c.skipCondition datetime_value h then nextCandidate p1.2
            else (some h, p1.2)
      let chosen :=
        match p2.1 with
        | some h => some h
        | none => (nextCandidate walker.backward).1
      (Option.map (datetimeOutputFor datetime_value) chosen, c)
  | Dimension.Number (NumberValue.Integer v) => (some (Output.Integer v.value), c)
  | Dimension.Number (NumberValue.Float v) => (some (Output.Float v.value), c)
  | Dimension.Ordinal ordinal => (some (Output.Ordinal ordinal.value), c)
  | Dimension.AmountOfMoney aom =>
      (some (Output.AmountOfMoney
        { value := aom.value, precision := aom.precision, unit := aom.unit }), c)
  | Dimension.Temperature temp =>
      (some (Output.Temperature
        { value := temp.value, unit := temp.unit, latent := temp.latent }), c)
  | Dimension.Duration duration =>
      (some (Output.Duration
        { period := duration.period, precision := duration.precision }), c)
  | Dimension.Percentage percentage => (some (Output.Percentage percentage), c)
  | Dimension.Other => (none, c)

/-- C8: the state-threaded resolver hands the context back unchanged,
agrees with the pure resolver, and a repeated call on the context it
returns yields the same output — resolution is a pure, deterministic
function of the context and the value. -/
theorem c8_pure_deterministic (c : ResolverContext) (dim : Dimension) :
    (c.resolveSt dim).2 = c
  ∧ (c.resolveSt dim).1 = c.resolve dim
  ∧ ((c.resolveSt dim).2.resolveSt dim).1 = (c.resolveSt dim).1 := by
  have h2 : (c.resolveSt dim).2 = c := by
    cases dim with
    | Datetime dv => rfl
    | Number n => cases n <;> rfl
    | Ordinal o => rfl
    | AmountOfMoney a => rfl
    | Temperature t => rfl
    | Duration d => rfl
    | Percentage p => rfl
    | Other => rfl
  have h1 : (c.resolveSt dim).1 = c.resolve dim := by
    cases dim with
    | Datetime dv =>
        simp only [ResolverContext.resolveSt, ResolverContext.resolve]
        generalize dv.constraint.to_walker c.ctx.reference c.ctx = w
        obtain ⟨fw, bw⟩ := w
        cases fw with
        | nil =>
            cases bw <;>
              simp [nextCandidate, ResolverContext.chooseInterval,
                ResolverContext.survivingForward, Option.orElse]
        | cons h t =>
            cases t <;> cases bw <;>
              by_cases hs : c.skipCondition dv h = true <;>
              simp [nextCandidate, ResolverContext.chooseInterval,
                ResolverContext.survivingForward, hs, Option.orElse]
    | Number n => cases n <;> rfl
    | Ordinal o => rfl
    | AmountOfMoney a => rfl
    | Temperature t => rfl
    | Duration d => rfl
    | Percentage p => rfl
    | Other => rfl
  refine ⟨h2, h1, ?_⟩
  rw [h2]

end Rustling
